import Mathlib

/-!
Shallow embedding of the row-materialization and scan-planning core of the
sparrow SQL server (files `src/store/reader/sled.rs` and
`src/core/core_util.rs`), together with theorems settling the claims about
`SledReader::next` and `remove_rowid_from_projection`.

Store keys and values are byte strings, modelled as `List Nat`.  The reader
decodes them to Rust `String`s via `String::from_utf8(..).expect(..)`, which
panics on invalid UTF-8; panics are modelled as an explicit `panicked`
outcome, distinct from returned errors.
-/

namespace Sparrow

/-- Raw byte strings stored in sled (keys and values). -/
abbrev Bytes := List Nat

/-- A UTF-8 continuation byte (`0x80 ..= 0xBF`). -/
def isCont (b : Nat) : Bool := 0x80 ≤ b && b ≤ 0xBF

/-- UTF-8 decoding, fuel-indexed for structural termination.  Implements the
standard rules (rejecting overlong forms, surrogates and code points above
`0x10FFFF`), i.e. the validation performed by Rust `String::from_utf8` /
`std::str::from_utf8`. -/
def utf8DecodeFuel : Nat → List Nat → Option (List Char)
  | _, [] => some []
  | 0, _ :: _ => none
  | fuel + 1, b :: rest =>
    if b ≤ 0x7F then
      (utf8DecodeFuel fuel rest).map (fun cs => Char.ofNat b :: cs)
    else if 0xC2 ≤ b && b ≤ 0xDF then
      match rest with
      | b1 :: rest2 =>
        if isCont b1 then
          (utf8DecodeFuel fuel rest2).map
            (fun cs => Char.ofNat ((b - 0xC0) * 0x40 + (b1 - 0x80)) :: cs)
        else none
      | [] => none
    else if 0xE0 ≤ b && b ≤ 0xEF then
      match rest with
      | b1 :: b2 :: rest3 =>
        let lo1 := if b = 0xE0 then 0xA0 else 0x80
        let hi1 := if b = 0xED then 0x9F else 0xBF
        if lo1 ≤ b1 && b1 ≤ hi1 && isCont b2 then
          (utf8DecodeFuel fuel rest3).map
            (fun cs =>
              Char.ofNat ((b - 0xE0) * 0x1000 + (b1 - 0x80) * 0x40 + (b2 - 0x80)) :: cs)
        else none
      | _ => none
    else if 0xF0 ≤ b && b ≤ 0xF4 then
      match rest with
      | b1 :: b2 :: b3 :: rest4 =>
        let lo1 := if b = 0xF0 then 0x90 else 0x80
        let hi1 := if b = 0xF4 then 0x8F else 0xBF
        if lo1 ≤ b1 && b1 ≤ hi1 && isCont b2 && isCont b3 then
          (utf8DecodeFuel fuel rest4).map
            (fun cs =>
              Char.ofNat ((b - 0xF0) * 0x40000 + (b1 - 0x80) * 0x1000 +
                (b2 - 0x80) * 0x40 + (b3 - 0x80)) :: cs)
        else none
      | _ => none
    else none

/-- Decode a byte string as UTF-8 (`String::from_utf8` without the panic:
`none` is the `Err` case on which the reader's `expect` panics). -/
def utf8Decode (bs : Bytes) : Option String :=
  (utf8DecodeFuel bs.length bs).map (fun cs => ⟨cs⟩)

/-- Substring search helper: is `pat` a contiguous segment of the list? -/
def containsAux (pat : List Char) : List Char → Bool
  | [] => pat.isEmpty
  | c :: cs => pat.isPrefixOf (c :: cs) || containsAux pat cs

/-- Rust `str::contains` with a string pattern.  For valid UTF-8 the byte-level
substring test agrees with this character-level one (a valid pattern can only
match at character boundaries). -/
def strContains (s pat : String) : Bool := containsAux pat.data s.data

/-- Rust `str::starts_with`.  For valid UTF-8 strings Rust's byte-prefix test
agrees with the character-list prefix test. -/
def strStartsWith (s pre : String) : Bool := pre.data.isPrefixOf s.data

/-- Lexicographic comparison of character lists by code point. -/
def charListCompare : List Char → List Char → Ordering
  | [], [] => Ordering.eq
  | [], _ :: _ => Ordering.lt
  | _ :: _, [] => Ordering.gt
  | a :: as, b :: bs =>
    if a.toNat < b.toNat then Ordering.lt
    else if b.toNat < a.toNat then Ordering.gt
    else charListCompare as bs

/-- Rust `str::partial_cmp`, which on strings is total (the reader's
`None => break` arm is unreachable): byte-lexicographic order, which for
valid UTF-8 equals code-point-lexicographic order. -/
def strCompare (a b : String) : Ordering := charListCompare a.data b.data

/-- Digit run: accumulate decimal digits; any non-digit byte fails. -/
def digitsToNatAux : Bytes → Nat → Option Nat
  | [], acc => some acc
  | b :: rest, acc =>
    if 0x30 ≤ b && b ≤ 0x39 then digitsToNatAux rest (acc * 10 + (b - 0x30))
    else none

/-- A non-empty run of decimal digit bytes. -/
def parseDigits : Bytes → Option Nat
  | [] => none
  | bs => digitsToNatAux bs 0

/-- `lexical::parse` for signed integers: optional `+`/`-` sign, then decimal
digits, with a range check; anything else is a parse error. -/
def lexicalParseSigned (lo hi : Int) (bs : Bytes) : Option Int :=
  let ranged : Int → Option Int := fun n => if lo ≤ n ∧ n ≤ hi then some n else none
  match bs with
  | 0x2B :: rest => (parseDigits rest).bind (fun n => ranged (Int.ofNat n))
  | 0x2D :: rest => (parseDigits rest).bind (fun n => ranged (-(Int.ofNat n)))
  | _ => (parseDigits bs).bind (fun n => ranged (Int.ofNat n))

/-- `lexical::parse::<i32, _>`. -/
def parseI32 (bs : Bytes) : Option Int := lexicalParseSigned (-(2 ^ 31)) (2 ^ 31 - 1) bs

/-- `lexical::parse::<i64, _>`. -/
def parseI64 (bs : Bytes) : Option Int := lexicalParseSigned (-(2 ^ 63)) (2 ^ 63 - 1) bs

/-- `reader_util::Interval`: open/closed boundary semantics of a scan key. -/
inductive Interval
  | Open
  | Closed
deriving DecidableEq

/-- `util::dbkey::CreateScanKey`: a byte-string bound plus interval semantics.
The key is a decoded UTF-8 string, as used by the reader. -/
structure CreateScanKey where
  key : String
  interval : Interval
deriving DecidableEq

/-- Modelled from the spec: `CreateScanKey::new` (in `util::dbkey`, not under
`src/`).  A fresh scan key for a plain prefix bound; full-table-scan bounds are
the table's record-key prefix range, which is inclusive, so the interval is
`Closed`. -/
def CreateScanKey.new (k : String) : CreateScanKey := ⟨k, Interval.Closed⟩

/-- Modelled from the spec: `reader_util::ScanOrder` (not under `src/`) —
whether the physical key order matches the requested output order. -/
inductive ScanOrder
  | Asc
  | Desc
deriving DecidableEq

/-- Modelled from the spec: `reader_util::SeekType` (not under `src/`), the
three scan strategies produced by the scan planner.  Constructor shapes are
fixed by their uses in `SledReader::new`. -/
inductive SeekType
  | NoRecord
  | FullTableScan (start stop : String)
  | UsingTheIndex (indexName : String) (order : ScanOrder) (start stop : CreateScanKey)

/-- Arrow column data types (the fragment relevant to the reader: the
supported set plus representatives of the unsupported remainder). -/
inductive DataType
  | Utf8
  | Int32
  | Int64
  | Float32
  | Float64
  | Boolean
deriving DecidableEq

/-- An arrow schema field: name and declared data type. -/
structure Field where
  name : String
  dataType : DataType
deriving DecidableEq

/-- Modelled from the spec: `meta_const::COLUMN_ROWID` (not under `src/`), the
name of the internal rowid column. -/
def COLUMN_ROWID : String := "rowid"

/-- Modelled from the spec: `util::dbkey::create_record_column` (not under
`src/`).  The record key bytes are a deterministic, injective encoding of
`(table, column ordinal, rowid)`. -/
def create_record_column (fullTableName : String) (columnIndex : Nat)
    (rowid : String) : Bytes :=
  (fullTableName.data.map Char.toNat) ++ [0, columnIndex, 0] ++
    (rowid.data.map Char.toNat)

/-- Result of `sled::Db::get`: a found/absent value, or a store error. -/
inductive StoreGetResult
  | ok (value : Option Bytes)
  | err (e : String)

/-- One item yielded by a sled range iterator: a `(key, value)` pair of byte
strings, or an iterator error. -/
abbrev IterItem := Except String (Bytes × Bytes)

/-- The reader's environment: the sled store handle (`get`, `scan_prefix`) and
the meta-cache ordinal lookup `get_serial_number(table, column)` (the latter is
modelled from the spec — `meta_cache` is not under `src/`). -/
structure StoreEnv where
  get : Bytes → StoreGetResult
  scanPrefix : String → List IterItem
  getSerialNumber : String → String → Except String Nat

/-- Errors surfaced by the reader (`arrow::error::ArrowError` variants used). -/
inductive ArrowError
  | IoError (msg : String)
  | SchemaError (msg : String)
  | CastError (msg : String)
deriving DecidableEq

/-- Message of the iterator-failure error (`"Error iter from sled: ..."`). -/
def iterErrMsg (e : String) : String := "Error iter from sled: " ++ e

/-- Rendering of raw key/value bytes inside error messages. -/
def bytesRepr (bs : Bytes) : String :=
  "[" ++ String.intercalate ", " (bs.map (fun b => Nat.repr b)) ++ "]"

/-- Message of the point-lookup-failure error, carrying the key bytes
(`"Error get key from sled, key: ..., error: ..."`). -/
def getErrMsg (key : Bytes) (e : String) : String :=
  "Error get key from sled, key: " ++ bytesRepr key ++ ", error: " ++ e

/-- Message of the ordinal-lookup-failure error (`"Error get serial number ..."`). -/
def serialErrMsg (e : String) : String := "Error get serial number " ++ e

/-- Message of the UTF-8 value decode error. -/
def utf8CastMsg (v : Bytes) : String :=
  "Error parsing " ++ bytesRepr v ++ " as utf8"

/-- Message of the unsupported-declared-type decode error. -/
def unsupportedMsg : String := "Unsupported data type"

/-- Per-entry decision of the boundary rules in `SledReader::next`
(lines 143–170): skip the entry, stop the scan, or accept the entry. -/
inductive EntryAction
  | skip
  | stop
  | accept
deriving DecidableEq

/-- Start-bound rule: with an `Open` start interval, an entry whose key has
`start.key` as a prefix is skipped (`continue`). -/
def startSkips (startK : CreateScanKey) (key : String) : Bool :=
  match startK.interval with
  | Interval.Open => strStartsWith key startK.key
  | Interval.Closed => false

/-- End-bound rule: with an `Open` end interval, an entry whose key has
`end.key` as a prefix stops the scan (`break`). -/
def endStops (endK : CreateScanKey) (key : String) : Bool :=
  match endK.interval with
  | Interval.Open => strStartsWith key endK.key
  | Interval.Closed => false

/-- The boundary rules of `SledReader::next`, in source order: the start-open
skip, the end-open stop, then — for keys not having `end.key` as a prefix —
the lexicographic comparison against `end.key` (greater stops, less-or-equal
accepts; keys having `end.key` as a prefix are accepted). -/
def entryAction (startK endK : CreateScanKey) (key : String) : EntryAction :=
  if startSkips startK key then EntryAction.skip
  else if endStops endK key then EntryAction.stop
  else if strStartsWith key endK.key then EntryAction.accept
  else
    match strCompare key endK.key with
    | Ordering.lt => EntryAction.accept
    | Ordering.eq => EntryAction.accept
    | Ordering.gt => EntryAction.stop

/-- Outcome of the rowid-harvesting loop of `SledReader::next`
(lines 121–180). -/
inductive ScanResult
  | ioError (msg : String)
  | panicked
  | done (rowids : List String)
deriving DecidableEq

/-- The rowid-harvesting loop of `SledReader::next` (lines 121–180): pull
entries, decode the key (panicking on invalid UTF-8), apply the boundary
rules, decode accepted values (the rowids, again panicking on invalid UTF-8),
and stop once `batch_size` rowids are accumulated.  An iterator error returns
immediately, discarding any rowids accumulated so far. -/
def scanLoop (startK endK : CreateScanKey) (batchSize : Nat) :
    List IterItem → List String → ScanResult
  | [], rowids => ScanResult.done rowids
  | Except.error e :: _, _ => ScanResult.ioError (iterErrMsg e)
  | Except.ok (keyBytes, valueBytes) :: rest, rowids =>
    match utf8Decode keyBytes with
    | none => ScanResult.panicked
    | some key =>
      match entryAction startK endK key with
      | EntryAction.skip => scanLoop startK endK batchSize rest rowids
      | EntryAction.stop => ScanResult.done rowids
      | EntryAction.accept =>
        match utf8Decode valueBytes with
        | none => ScanResult.panicked
        | some value =>
          let rowids2 := rowids ++ [value]
          if rowids2.length = batchSize then ScanResult.done rowids2
          else scanLoop startK endK batchSize rest rowids2

/-- A materialized cell: a decoded scalar or a typed null. -/
inductive CellValue
  | str (s : String)
  | int32 (n : Int)
  | int64 (n : Int)
  | null
deriving DecidableEq

/-- Outcome of materializing one projected column. -/
inductive ColResult
  | okCol (cells : List CellValue)
  | colError (e : ArrowError)
  | panicked
deriving DecidableEq

/-- The per-column materialization loop of `SledReader::next` (lines 216–284):
for each harvested rowid, form the record key and issue a point lookup.
A found value is decoded per the declared type — UTF-8 text is validated
(failure is a returned `CastError`), integers are parsed by
`lexical::parse(..).unwrap()` (failure panics), and any other declared type is
a returned `CastError`.  An absent value appends a typed null for the
supported types and is a `CastError` otherwise.  A store error returns an
`IoError` carrying the key bytes. -/
def materializeColumn (get : Bytes → StoreGetResult) (fullTableName : String)
    (columnIndex : Nat) (dt : DataType) :
    List String → List CellValue → ColResult
  | [], acc => ColResult.okCol acc
  | rowid :: rest, acc =>
    let dbKey := create_record_column fullTableName columnIndex rowid
    match get dbKey with
    | StoreGetResult.ok (some v) =>
      match dt with
      | DataType.Utf8 =>
        match utf8Decode v with
        | some s =>
          materializeColumn get fullTableName columnIndex dt rest (acc ++ [CellValue.str s])
        | none => ColResult.colError (ArrowError.CastError (utf8CastMsg v))
      | DataType.Int32 =>
        match parseI32 v with
        | some n =>
          materializeColumn get fullTableName columnIndex dt rest (acc ++ [CellValue.int32 n])
        | none => ColResult.panicked
      | DataType.Int64 =>
        match parseI64 v with
        | some n =>
          materializeColumn get fullTableName columnIndex dt rest (acc ++ [CellValue.int64 n])
        | none => ColResult.panicked
      | _ => ColResult.colError (ArrowError.CastError unsupportedMsg)
    | StoreGetResult.ok none =>
      match dt with
      | DataType.Utf8 =>
        materializeColumn get fullTableName columnIndex dt rest (acc ++ [CellValue.null])
      | DataType.Int32 =>
        materializeColumn get fullTableName columnIndex dt rest (acc ++ [CellValue.null])
      | DataType.Int64 =>
        materializeColumn get fullTableName columnIndex dt rest (acc ++ [CellValue.null])
      | _ => ColResult.colError (ArrowError.CastError unsupportedMsg)
    | StoreGetResult.err e =>
      ColResult.colError (ArrowError.IoError (getErrMsg dbKey e))

/-- Dispatch for one projected field (lines 193–218): a field whose name
contains `COLUMN_ROWID` (Rust `String::contains`, substring containment) is
filled with the harvested rowid strings themselves, with no store access —
but each append goes through `field_builder::<StringBuilder>(i).unwrap()`
(line 200), a downcast that succeeds only when the field's declared type is
`Utf8` and panics otherwise; the loop body runs once per rowid, so with zero
harvested rowids no panic occurs.  Any other field resolves its column
ordinal via `get_serial_number` (failure is a `SchemaError`) and is
materialized by point lookups. -/
def materializeField (env : StoreEnv) (fullTableName : String) (field : Field)
    (rowids : List String) : ColResult :=
  if strContains field.name COLUMN_ROWID then
    match field.dataType with
    | DataType.Utf8 => ColResult.okCol (rowids.map CellValue.str)
    | _ =>
      match rowids with
      | [] => ColResult.okCol []
      | _ :: _ => ColResult.panicked
  else
    match env.getSerialNumber fullTableName field.name with
    | Except.error e => ColResult.colError (ArrowError.SchemaError (serialErrMsg e))
    | Except.ok columnIndex =>
      materializeColumn env.get fullTableName columnIndex field.dataType rowids []

/-- Outcome of materializing all projected fields of a batch. -/
inductive MatResult
  | okCols (cols : List (Field × List CellValue))
  | matError (e : ArrowError)
  | panicked
deriving DecidableEq

/-- The outer field loop of the materializer: fields are processed in
projected-schema order and the first failure aborts the batch. -/
def materializeFields (env : StoreEnv) (fullTableName : String) :
    List Field → List String → MatResult
  | [], _ => MatResult.okCols []
  | f :: fs, rowids =>
    match materializeField env fullTableName f rowids with
    | ColResult.okCol cells =>
      match materializeFields env fullTableName fs rowids with
      | MatResult.okCols cols => MatResult.okCols ((f, cells) :: cols)
      | MatResult.matError e => MatResult.matError e
      | MatResult.panicked => MatResult.panicked
    | ColResult.colError e => MatResult.matError e
    | ColResult.panicked => MatResult.panicked

/-- One call of `SledReader::next` either yields no batch (`None`), a record
batch (one cell column per projected field), a returned error
(`Some(Err(..))`), or panics. -/
inductive NextResult
  | noBatch
  | batch (cols : List (Field × List CellValue))
  | nextError (e : ArrowError)
  | panicked
deriving DecidableEq

/-- The reader state (`struct SledReader`): the fields that `next` reads.
`sled_iter` is the range iterator captured at construction (`None` for the
`NoRecord` strategy), modelled as the list of items it will yield. -/
structure SledReader where
  fullTableName : String
  projectedSchema : List Field
  batchSize : Nat
  sledIter : Option (List IterItem)
  startScanKey : CreateScanKey
  endScanKey : CreateScanKey

/-- `SledReader::new` (lines 46–101): computes the projected schema from the
optional projection indices, then installs the scan bounds and — except for
`NoRecord` — a `scan_prefix` iterator over the start key.  The planner result
`get_seek_prefix` is an input here (reader_util is not under `src/`).  The
Rust field `end` is named `stop` where `end` is a Lean keyword. -/
def SledReader.new (env : StoreEnv) (tableFields : List Field)
    (fullTableName : String) (batchSize : Nat) (projection : Option (List Nat))
    (seek : SeekType) : SledReader :=
  let projectedSchema :=
    match projection with
    | some idxs => idxs.map (fun i => tableFields.getD i ⟨"", DataType.Utf8⟩)
    | none => tableFields
  match seek with
  | SeekType.NoRecord =>
    { fullTableName := fullTableName, projectedSchema := projectedSchema,
      batchSize := batchSize, sledIter := none,
      startScanKey := CreateScanKey.new "", endScanKey := CreateScanKey.new "" }
  | SeekType.FullTableScan start stop =>
    { fullTableName := fullTableName, projectedSchema := projectedSchema,
      batchSize := batchSize, sledIter := some (env.scanPrefix start),
      startScanKey := CreateScanKey.new start, endScanKey := CreateScanKey.new stop }
  | SeekType.UsingTheIndex _ _ start stop =>
    { fullTableName := fullTableName, projectedSchema := projectedSchema,
      batchSize := batchSize, sledIter := some (env.scanPrefix start.key),
      startScanKey := start, endScanKey := stop }

/-- `SledReader::next` (lines 111–292).  The source *clones* `self.sled_iter`,
advances only the clone, and never writes the advanced iterator back to
`self`, so the observable reader state after a call is unchanged: the returned
reader equals the argument. -/
def SledReader.next (env : StoreEnv) (r : SledReader) : NextResult × SledReader :=
  match r.sledIter with
  | none => (NextResult.noBatch, r)
  | some iter =>
    match scanLoop r.startScanKey r.endScanKey r.batchSize iter [] with
    | ScanResult.ioError msg => (NextResult.nextError (ArrowError.IoError msg), r)
    | ScanResult.panicked => (NextResult.panicked, r)
    | ScanResult.done rowids =>
      if rowids.length < 1 then (NextResult.noBatch, r)
      else
        match materializeFields env r.fullTableName r.projectedSchema rowids with
        | MatResult.okCols cols => (NextResult.batch cols, r)
        | MatResult.matError e => (NextResult.nextError e, r)
        | MatResult.panicked => (NextResult.panicked, r)

/-- Logical-plan expressions (`datafusion::logical_plan::Expr`, the fragment
the rewriter distinguishes: direct column references versus everything else,
with representatives of the non-`Column` variants). -/
inductive Expr
  | Column (name : String)
  | Literal (v : String)
  | Alias (e : Expr) (name : String)
deriving DecidableEq

/-- A logical-plan schema field (`DFField`): its (unqualified) name and type. -/
structure DFField where
  name : String
  dataType : DataType
deriving DecidableEq

/-- `datafusion::logical_plan::LogicalPlan`: the five node kinds the rewriter
handles (projection, explain, filter, table-scan, limit) plus representatives
of the remaining kinds hit by the catch-all arm (`Sort`, `EmptyRelation`).
`TableScan.source` is an opaque provider id. -/
inductive LogicalPlan
  | Projection (expr : List Expr) (input : LogicalPlan) (schema : List DFField)
  | Explain (verbose : Bool) (plan : LogicalPlan) (stringifiedPlans : List String)
      (schema : List DFField)
  | Filter (predicate : Expr) (input : LogicalPlan)
  | TableScan (tableName : String) (source : Nat) (projection : Option (List Nat))
      (projectedSchema : List DFField) (filters : List Expr) (limit : Option Nat)
  | Limit (n : Nat) (input : LogicalPlan)
  | SortNode (expr : List Expr) (input : LogicalPlan)
  | EmptyRelation
deriving DecidableEq

/-- The projection-node loop of `remove_rowid_from_projection`
(core_util.rs lines 277–290): walk `expr` and `schema` in lock-step, dropping
the pair when the expression is a direct column reference named
`COLUMN_ROWID` and keeping every other pair. -/
def projectRowidFilter : List Expr → List DFField → List Expr × List DFField
  | e :: es, f :: fs =>
    let r := projectRowidFilter es fs
    match e with
    | Expr.Column name =>
      if name = COLUMN_ROWID then r else (e :: r.1, f :: r.2)
    | _ => (e :: r.1, f :: r.2)
  | _, _ => ([], [])

/-- `remove_rowid_from_projection` (core_util.rs lines 271–348): recursively
rewrites projection, explain, filter, table-scan and limit nodes — dropping
directly-projected rowid columns from projections and rowid-named fields from
table-scan output schemas — and returns every other node kind unchanged
(catch-all arm, subtree included). -/
def remove_rowid_from_projection : LogicalPlan → LogicalPlan
  | LogicalPlan.Projection expr input schema =>
    LogicalPlan.Projection (projectRowidFilter expr schema).1
      (remove_rowid_from_projection input) (projectRowidFilter expr schema).2
  | LogicalPlan.Explain verbose plan stringifiedPlans schema =>
    LogicalPlan.Explain verbose (remove_rowid_from_projection plan)
      stringifiedPlans schema
  | LogicalPlan.Filter predicate input =>
    LogicalPlan.Filter predicate (remove_rowid_from_projection input)
  | LogicalPlan.TableScan tableName source projection projectedSchema filters limit =>
    LogicalPlan.TableScan tableName source projection
      (projectedSchema.filter (fun f => f.name != COLUMN_ROWID)) filters limit
  | LogicalPlan.Limit n input =>
    LogicalPlan.Limit n (remove_rowid_from_projection input)
  | p => p

/-- Is this expression a direct column reference to the rowid column? -/
def exprIsRowidColumn : Expr → Bool
  | Expr.Column name => name == COLUMN_ROWID
  | _ => false

/-- The claimed invariant: no projection-node expression directly selects the
rowid column and no table-scan output schema names it, anywhere in the plan
tree. -/
def planRowidFree : LogicalPlan → Bool
  | LogicalPlan.Projection expr input _ =>
    expr.all (fun e => !exprIsRowidColumn e) && planRowidFree input
  | LogicalPlan.Explain _ plan _ _ => planRowidFree plan
  | LogicalPlan.Filter _ input => planRowidFree input
  | LogicalPlan.TableScan _ _ _ projectedSchema _ _ =>
    projectedSchema.all (fun f => f.name != COLUMN_ROWID)
  | LogicalPlan.Limit _ input => planRowidFree input
  | LogicalPlan.SortNode _ input => planRowidFree input
  | LogicalPlan.EmptyRelation => true

/-- Does some projection node of the plan explicitly select the rowid column
by name (the caveat in the claim)? -/
def explicitlySelectsRowid : LogicalPlan → Bool
  | LogicalPlan.Projection expr input _ =>
    expr.any exprIsRowidColumn || explicitlySelectsRowid input
  | LogicalPlan.Explain _ plan _ _ => explicitlySelectsRowid plan
  | LogicalPlan.Filter _ input => explicitlySelectsRowid input
  | LogicalPlan.TableScan _ _ _ _ _ _ => false
  | LogicalPlan.Limit _ input => explicitlySelectsRowid input
  | LogicalPlan.SortNode _ input => explicitlySelectsRowid input
  | LogicalPlan.EmptyRelation => false

/-- Is every node of the plan one of the five kinds the rewriter handles? -/
def handledOnly : LogicalPlan → Bool
  | LogicalPlan.Projection _ input _ => handledOnly input
  | LogicalPlan.Explain _ plan _ _ => handledOnly plan
  | LogicalPlan.Filter _ input => handledOnly input
  | LogicalPlan.TableScan _ _ _ _ _ _ => true
  | LogicalPlan.Limit _ input => handledOnly input
  | _ => false

/-- Is the root node of a kind the rewriter does not handle (the catch-all
arm)? -/
def isUnhandledKind : LogicalPlan → Bool
  | LogicalPlan.SortNode _ _ => true
  | LogicalPlan.EmptyRelation => true
  | _ => false

/-! ## Claim C1 — batch sizing and cursor retention -/

/-- Environment for the C1 scenario: the store holds exactly one entry in the
scanned range (key `"k"`, rowid `"r"`), and the single projected column
`"c1"` has the stored value `"v"` for every record key. -/
def c1Env : StoreEnv :=
  { get := fun _ => StoreGetResult.ok (some [0x76]),
    scanPrefix := fun _ => [Except.ok ([0x6B], [0x72])],
    getSerialNumber := fun _ _ => Except.ok 1 }

/-- A scan with `batch_size = 1` over the one matching entry of `c1Env`. -/
def c1Reader : SledReader :=
  SledReader.new c1Env [⟨"c1", DataType.Utf8⟩] "test.t1" 1 none
    (SeekType.FullTableScan "" "z")

/-- C1: with `m = 1` matching entry and `batch_size = 1` the claim requires
the first call to yield one batch of one row and the second call to yield no
batch.  The code however clones `self.sled_iter`, advances only the clone and
never stores it back, so the reader state is unchanged by `next` and the
second call returns the very same batch again instead of none: the cursor
position is not retained. -/
theorem c1_cursor_not_retained :
    (SledReader.next c1Env c1Reader).1 =
      NextResult.batch [(⟨"c1", DataType.Utf8⟩, [CellValue.str "v"])] ∧
    (SledReader.next c1Env c1Reader).2 = c1Reader ∧
    (SledReader.next c1Env (SledReader.next c1Env c1Reader).2).1 =
      NextResult.batch [(⟨"c1", DataType.Utf8⟩, [CellValue.str "v"])] ∧
    (SledReader.next c1Env (SledReader.next c1Env c1Reader).2).1 ≠
      NextResult.noBatch := by
  refine ⟨rfl, rfl, rfl, ?_⟩
  decide

/-! ## Claim C3 — integer parse failure -/

/-- Environment for the C3 scenario: the projected `Int32` column has the
stored value `"abc"`, which does not parse as an integer. -/
def c3Env : StoreEnv :=
  { get := fun _ => StoreGetResult.ok (some [0x61, 0x62, 0x63]),
    scanPrefix := fun _ => [Except.ok ([0x6B], [0x72])],
    getSerialNumber := fun _ _ => Except.ok 2 }

/-- A scan projecting one `Int32` column over the store of `c3Env`. -/
def c3Reader : SledReader :=
  SledReader.new c3Env [⟨"n", DataType.Int32⟩] "test.t1" 1 none
    (SeekType.FullTableScan "" "z")

/-- C3: when the stored bytes `"abc"` of a projected `Int32` column fail to
parse, the claim requires `next` to return a decode error.  The code instead
calls `lexical::parse(..).unwrap()`, which panics: the outcome is the panic,
not a returned error (and also not a null). -/
theorem c3_int_parse_panics :
    parseI32 [0x61, 0x62, 0x63] = none ∧
    (SledReader.next c3Env c3Reader).1 = NextResult.panicked ∧
    (∀ e, (SledReader.next c3Env c3Reader).1 ≠ NextResult.nextError e) := by
  refine ⟨rfl, rfl, fun e h => ?_⟩
  rw [show (SledReader.next c3Env c3Reader).1 = NextResult.panicked from rfl] at h
  exact NextResult.noConfusion h

/-! ## Claim C8 — the NoRecord strategy -/

/-- C8: a reader constructed from the `NoRecord` strategy has no iterator, so
every call of `next` yields no batch and leaves the reader unchanged — for
every store environment, both at construction and at pull time, which shows
that no read is ever issued against the store. -/
theorem c8_norecord_yields_nothing
    (envNew envNext : StoreEnv) (tableFields : List Field)
    (fullTableName : String) (batchSize : Nat) (projection : Option (List Nat)) :
    SledReader.next envNext
        (SledReader.new envNew tableFields fullTableName batchSize projection
          SeekType.NoRecord) =
      (NextResult.noBatch,
        SledReader.new envNew tableFields fullTableName batchSize projection
          SeekType.NoRecord) := rfl

/-! ## Claim C10 — non-UTF-8 store content panics -/

/-- Environment whose scanned range contains an entry with non-UTF-8 *key*
bytes (`0xFF`). -/
def c10KeyEnv : StoreEnv :=
  { get := fun _ => StoreGetResult.ok none,
    scanPrefix := fun _ => [Except.ok ([0xFF], [0x72])],
    getSerialNumber := fun _ _ => Except.ok 0 }

/-- A scan over the store of `c10KeyEnv`. -/
def c10KeyReader : SledReader :=
  SledReader.new c10KeyEnv [⟨"c", DataType.Utf8⟩] "t" 1 none
    (SeekType.FullTableScan "" "z")

/-- Environment whose scanned range contains an accepted entry with non-UTF-8
*value* bytes (`0xFF`). -/
def c10ValEnv : StoreEnv :=
  { get := fun _ => StoreGetResult.ok none,
    scanPrefix := fun _ => [Except.ok ([0x61], [0xFF])],
    getSerialNumber := fun _ _ => Except.ok 0 }

/-- A scan over the store of `c10ValEnv`. -/
def c10ValReader : SledReader :=
  SledReader.new c10ValEnv [⟨"c", DataType.Utf8⟩] "t" 1 none
    (SeekType.FullTableScan "" "z")

/-- C10: the byte `0xFF` is not valid UTF-8, and a scanned entry carrying it
as key bytes (first conjunct pair) or as value bytes (second) makes `next`
panic via `String::from_utf8(..).expect(..)` rather than return through the
error channel: the outcome is `panicked`, not `nextError`. -/
theorem c10_nonutf8_panics :
    utf8Decode [0xFF] = none ∧
    (SledReader.next c10KeyEnv c10KeyReader).1 = NextResult.panicked ∧
    (SledReader.next c10ValEnv c10ValReader).1 = NextResult.panicked ∧
    (∀ e, (SledReader.next c10KeyEnv c10KeyReader).1 ≠ NextResult.nextError e) := by
  refine ⟨rfl, rfl, rfl, fun e h => ?_⟩
  rw [show (SledReader.next c10KeyEnv c10KeyReader).1 = NextResult.panicked from rfl] at h
  exact NextResult.noConfusion h

/-! ## Claim C2 — per-entry boundary rules -/

/-- If the start-open skip condition fails, `startSkips` is false. -/
lemma startSkips_eq_false (startK : CreateScanKey) (key : String)
    (h : startK.interval = Interval.Open → strStartsWith key startK.key = false) :
    startSkips startK key = false := by
  cases hs : startK.interval with
  | Open => simpa [startSkips, hs] using h hs
  | Closed => simp [startSkips, hs]

/-- If the key does not have `end.key` as a prefix, `endStops` is false. -/
lemma endStops_eq_false (endK : CreateScanKey) (key : String)
    (h : strStartsWith key endK.key = false) : endStops endK key = false := by
  cases he : endK.interval <;> simp [endStops, he, h]

/-- C2: the boundary rules are evaluated in order on each pulled entry.
(1) With an `Open` start interval and `start.key` a prefix of the key, the
entry is skipped and the loop continues on the remaining items without
terminating.  (2) Failing that, with an `Open` end interval and `end.key` a
prefix of the key, the scan terminates before consuming the entry (its value
is never decoded and the accumulated rowids are returned).  (3) Failing the
start rule, when the key does not have `end.key` as a prefix, a key comparing
lexicographically greater than `end.key` terminates the scan, and a key
comparing less or equal is accepted. -/
theorem c2_boundary_rules (startK endK : CreateScanKey) (key : String)
    (batchSize : Nat) (keyBytes valueBytes : Bytes) (rest : List IterItem)
    (rowids : List String) (hk : utf8Decode keyBytes = some key) :
    (startK.interval = Interval.Open → strStartsWith key startK.key = true →
      entryAction startK endK key = EntryAction.skip ∧
      scanLoop startK endK batchSize (Except.ok (keyBytes, valueBytes) :: rest) rowids =
        scanLoop startK endK batchSize rest rowids) ∧
    ((startK.interval = Interval.Open → strStartsWith key startK.key = false) →
      endK.interval = Interval.Open → strStartsWith key endK.key = true →
      entryAction startK endK key = EntryAction.stop ∧
      scanLoop startK endK batchSize (Except.ok (keyBytes, valueBytes) :: rest) rowids =
        ScanResult.done rowids) ∧
    ((startK.interval = Interval.Open → strStartsWith key startK.key = false) →
      strStartsWith key endK.key = false →
      (strCompare key endK.key = Ordering.gt →
        entryAction startK endK key = EntryAction.stop ∧
        scanLoop startK endK batchSize (Except.ok (keyBytes, valueBytes) :: rest) rowids =
          ScanResult.done rowids) ∧
      (strCompare key endK.key ≠ Ordering.gt →
        entryAction startK endK key = EntryAction.accept)) := by
  refine ⟨?_, ?_, ?_⟩
  · intro h1 h2
    have hss : startSkips startK key = true := by simp [startSkips, h1, h2]
    have ha : entryAction startK endK key = EntryAction.skip := by
      simp [entryAction, hss]
    exact ⟨ha, by simp [scanLoop, hk, ha]⟩
  · intro h0 h1 h2
    have hss := startSkips_eq_false startK key h0
    have hes : endStops endK key = true := by simp [endStops, h1, h2]
    have ha : entryAction startK endK key = EntryAction.stop := by
      simp [entryAction, hss, hes]
    exact ⟨ha, by simp [scanLoop, hk, ha]⟩
  · intro h0 h2
    have hss := startSkips_eq_false startK key h0
    have hes := endStops_eq_false endK key h2
    constructor
    · intro hgt
      have ha : entryAction startK endK key = EntryAction.stop := by
        simp [entryAction, hss, hes, h2, hgt]
      exact ⟨ha, by simp [scanLoop, hk, ha]⟩
    · intro hne
      cases hc : strCompare key endK.key with
      | lt => simp [entryAction, hss, hes, h2, hc]
      | eq => simp [entryAction, hss, hes, h2, hc]
      | gt => exact absurd hc hne

/-- C2 witness: the three boundary rules exercised on concrete keys — a skip
(`start = ("a", Open)`, key `"ab"`), a stop before consumption
(`end = ("a", Open)`, key `"ab"`), a stop by comparison (`end = ("b", Closed)`,
key `"c"`), and an acceptance (key `"a"`). -/
theorem c2_boundary_rules_witness :
    (entryAction ⟨"a", Interval.Open⟩ ⟨"zz", Interval.Closed⟩ "ab" = EntryAction.skip ∧
      scanLoop ⟨"a", Interval.Open⟩ ⟨"zz", Interval.Closed⟩ 2
          [Except.ok ([0x61, 0x62], [0x72])] [] =
        scanLoop ⟨"a", Interval.Open⟩ ⟨"zz", Interval.Closed⟩ 2 [] []) ∧
    (entryAction ⟨"x", Interval.Open⟩ ⟨"a", Interval.Open⟩ "ab" = EntryAction.stop ∧
      scanLoop ⟨"x", Interval.Open⟩ ⟨"a", Interval.Open⟩ 2
          [Except.ok ([0x61, 0x62], [0x72])] ["r0"] =
        ScanResult.done ["r0"]) ∧
    (entryAction ⟨"x", Interval.Open⟩ ⟨"b", Interval.Closed⟩ "c" = EntryAction.stop ∧
      scanLoop ⟨"x", Interval.Open⟩ ⟨"b", Interval.Closed⟩ 2
          [Except.ok ([0x63], [0x72])] [] =
        ScanResult.done []) ∧
    entryAction ⟨"x", Interval.Open⟩ ⟨"b", Interval.Closed⟩ "a" = EntryAction.accept :=
  ⟨(c2_boundary_rules ⟨"a", Interval.Open⟩ ⟨"zz", Interval.Closed⟩ "ab" 2
      [0x61, 0x62] [0x72] [] [] (by decide)).1 rfl (by decide),
    ((c2_boundary_rules ⟨"x", Interval.Open⟩ ⟨"a", Interval.Open⟩ "ab" 2
      [0x61, 0x62] [0x72] [] ["r0"] (by decide)).2.1 (fun _ => by decide) rfl (by decide)),
    ((c2_boundary_rules ⟨"x", Interval.Open⟩ ⟨"b", Interval.Closed⟩ "c" 2
      [0x63] [0x72] [] [] (by decide)).2.2 (fun _ => by decide) (by decide)).1 (by decide),
    ((c2_boundary_rules ⟨"x", Interval.Open⟩ ⟨"b", Interval.Closed⟩ "a" 2
      [0x61] [0x72] [] [] (by decide)).2.2 (fun _ => by decide) (by decide)).2 (by decide)⟩

/-! ## Claim C7 — absent value becomes a typed null -/

/-- C7: for a supported declared type, when the point lookup finds no stored
value for any of the harvested rowids, the column materializes as a typed
null per row and no error is reported. -/
theorem c7_absent_typed_null
    (dt : DataType)
    (hdt : dt = DataType.Utf8 ∨ dt = DataType.Int32 ∨ dt = DataType.Int64)
    (get : Bytes → StoreGetResult) (t : String) (idx : Nat)
    (rowids : List String) (acc : List CellValue)
    (h : ∀ rid ∈ rowids, get (create_record_column t idx rid) = StoreGetResult.ok none) :
    materializeColumn get t idx dt rowids acc =
      ColResult.okCol (acc ++ rowids.map (fun _ => CellValue.null)) := by
  induction rowids generalizing acc with
  | nil => simp [materializeColumn]
  | cons rid rest ih =>
    have hhead := h rid (List.mem_cons_self rid rest)
    have htail : ∀ r ∈ rest, get (create_record_column t idx r) = StoreGetResult.ok none :=
      fun r hr => h r (List.mem_cons_of_mem rid hr)
    rcases hdt with h1 | h1 | h1 <;> subst h1 <;>
      simp [materializeColumn, hhead, ih (acc ++ [CellValue.null]) htail]

/-- C7 witness: an `Int32` column over one rowid whose record key is absent
from the store materializes as a single typed null. -/
theorem c7_absent_typed_null_witness :
    materializeColumn (fun _ => StoreGetResult.ok none) "t" 0 DataType.Int32
      ["r1"] [] = ColResult.okCol [CellValue.null] :=
  c7_absent_typed_null DataType.Int32 (Or.inr (Or.inl rfl))
    (fun _ => StoreGetResult.ok none) "t" 0 ["r1"] [] (fun _ _ => rfl)

/-! ## Claim C6 — unsupported declared types -/

/-- Environment for the C6 next-level scenario: one matching entry, all
point lookups absent. -/
def c6Env : StoreEnv :=
  { get := fun _ => StoreGetResult.ok none,
    scanPrefix := fun _ => [Except.ok ([0x6B], [0x72])],
    getSerialNumber := fun _ _ => Except.ok 0 }

/-- A scan projecting one column of declared type `dt` over `c6Env`. -/
def c6Reader (dt : DataType) : SledReader :=
  SledReader.new c6Env [⟨"c", dt⟩] "test.t1" 1 none
    (SeekType.FullTableScan "" "z")

/-- C6: materializing a projected column whose declared type is outside
{Utf8, Int32, Int64} yields the unsupported-type `CastError` — never a
default or null cell — both when the point lookup finds a value and when it
finds none (first conjunct); and the error is fatal to the batch: `next`
returns it as the batch result (second conjunct). -/
theorem c6_unsupported_type_decode_error :
    (∀ (get : Bytes → StoreGetResult) (t : String) (idx : Nat) (dt : DataType)
        (rowid : String) (rest : List String) (acc : List CellValue),
      dt ≠ DataType.Utf8 → dt ≠ DataType.Int32 → dt ≠ DataType.Int64 →
      (get (create_record_column t idx rowid) = StoreGetResult.ok none ∨
        ∃ v, get (create_record_column t idx rowid) = StoreGetResult.ok (some v)) →
      materializeColumn get t idx dt (rowid :: rest) acc =
        ColResult.colError (ArrowError.CastError unsupportedMsg)) ∧
    (∀ dt : DataType, dt ≠ DataType.Utf8 → dt ≠ DataType.Int32 → dt ≠ DataType.Int64 →
      (SledReader.next c6Env (c6Reader dt)).1 =
        NextResult.nextError (ArrowError.CastError unsupportedMsg)) := by
  constructor
  · intro get t idx dt rowid rest acc h1 h2 h3 h4
    cases dt with
    | Utf8 => exact absurd rfl h1
    | Int32 => exact absurd rfl h2
    | Int64 => exact absurd rfl h3
    | Float32 => rcases h4 with hget | ⟨v, hget⟩ <;> simp [materializeColumn, hget]
    | Float64 => rcases h4 with hget | ⟨v, hget⟩ <;> simp [materializeColumn, hget]
    | Boolean => rcases h4 with hget | ⟨v, hget⟩ <;> simp [materializeColumn, hget]
  · intro dt h1 h2 h3
    cases dt with
    | Utf8 => exact absurd rfl h1
    | Int32 => exact absurd rfl h2
    | Int64 => exact absurd rfl h3
    | Float32 => rfl
    | Float64 => rfl
    | Boolean => rfl

/-- C6 witness: a `Float64` column yields the unsupported-type error at
`materializeColumn` (lookup absent) and through `next`. -/
theorem c6_unsupported_type_decode_error_witness :
    materializeColumn (fun _ => StoreGetResult.ok none) "t" 0 DataType.Float64
      ["r1"] [] = ColResult.colError (ArrowError.CastError unsupportedMsg) ∧
    (SledReader.next c6Env (c6Reader DataType.Float64)).1 =
      NextResult.nextError (ArrowError.CastError unsupportedMsg) :=
  ⟨c6_unsupported_type_decode_error.1 (fun _ => StoreGetResult.ok none) "t" 0
      DataType.Float64 "r1" [] [] (by decide) (by decide) (by decide) (Or.inl rfl),
    c6_unsupported_type_decode_error.2 DataType.Float64
      (by decide) (by decide) (by decide)⟩

/-! ## Claim C9 — store I/O errors -/

/-- Environment for the C9 iterator-error scenario: one accepted entry is
followed by an iterator error `e`, with `batch_size` not yet reached. -/
def c9Env (e : String) : StoreEnv :=
  { get := fun _ => StoreGetResult.ok (some [0x76]),
    scanPrefix := fun _ => [Except.ok ([0x61], [0x72]), Except.error e],
    getSerialNumber := fun _ _ => Except.ok 0 }

/-- A scan with `batch_size = 5` over the failing iterator of `c9Env`. -/
def c9Reader (e : String) : SledReader :=
  SledReader.new (c9Env e) [⟨"c", DataType.Utf8⟩] "test.t1" 5 none
    (SeekType.FullTableScan "" "z")

/-- C9: an iterator error during cursor advancement makes `next` return the
I/O error as the batch result, discarding the rowid already accumulated (no
partial batch is emitted; first conjunct, for every error value `e`); and a
point-lookup error during materialization returns an I/O error whose message
carries the looked-up key bytes (second conjunct). -/
theorem c9_io_error_propagated :
    (∀ e : String,
      SledReader.next (c9Env e) (c9Reader e) =
        (NextResult.nextError (ArrowError.IoError (iterErrMsg e)), c9Reader e)) ∧
    (∀ (get : Bytes → StoreGetResult) (t : String) (idx : Nat) (dt : DataType)
        (rowid : String) (rest : List String) (acc : List CellValue) (emsg : String),
      get (create_record_column t idx rowid) = StoreGetResult.err emsg →
      materializeColumn get t idx dt (rowid :: rest) acc =
        ColResult.colError
          (ArrowError.IoError (getErrMsg (create_record_column t idx rowid) emsg))) := by
  constructor
  · intro e
    rfl
  · intro get t idx dt rowid rest acc emsg h
    simp [materializeColumn, h]

/-- C9 witness: a concrete failing point lookup surfaces the I/O error with
the record key bytes in its message. -/
theorem c9_io_error_propagated_witness :
    materializeColumn (fun _ => StoreGetResult.err "boom") "t" 0 DataType.Utf8
      ["r1"] [] =
      ColResult.colError
        (ArrowError.IoError (getErrMsg (create_record_column "t" 0 "r1") "boom")) :=
  c9_io_error_propagated.2 (fun _ => StoreGetResult.err "boom") "t" 0
    DataType.Utf8 "r1" [] [] "boom" rfl

/-! ## Claim C5 — rowid column versus point lookups -/

/-- Environment for the C5 counterexample: one matching entry with rowid
`"r"`; every record key has the stored value `"v"`. -/
def c5Env : StoreEnv :=
  { get := fun _ => StoreGetResult.ok (some [0x76]),
    scanPrefix := fun _ => [Except.ok ([0x6B], [0x72])],
    getSerialNumber := fun _ _ => Except.ok 3 }

/-- The same environment with a store whose every point lookup fails — used
to show that no lookup is issued at all for the `"growid"` column. -/
def c5EnvNoStore : StoreEnv :=
  { c5Env with get := fun _ => StoreGetResult.err "unreachable" }

/-- A scan projecting the single column `"growid"` — not the rowid column,
but its name contains `"rowid"` as a substring. -/
def c5Reader : SledReader :=
  SledReader.new c5Env [⟨"growid", DataType.Utf8⟩] "test.t1" 1 none
    (SeekType.FullTableScan "" "z")

/-- C5 counterexample: the column `"growid"` is not the rowid column, yet —
because the reader tests `field_name.contains(COLUMN_ROWID)`, substring
containment rather than name equality — it is filled with the rowid string
`"r"` instead of the looked-up store value `"v"`, and no point lookup is
issued for it (the result is unchanged under a store whose every lookup
fails).  This contradicts the claim that every projected column other than
the rowid column is materialized via point lookups. -/
theorem c5_contains_counterexample :
    strContains "growid" COLUMN_ROWID = true ∧
    "growid" ≠ COLUMN_ROWID ∧
    (SledReader.next c5Env c5Reader).1 =
      NextResult.batch [(⟨"growid", DataType.Utf8⟩, [CellValue.str "r"])] ∧
    c5Env.get (create_record_column "test.t1" 3 "r") =
      StoreGetResult.ok (some [0x76]) ∧
    utf8Decode [0x76] = some "v" ∧
    CellValue.str "r" ≠ CellValue.str "v" ∧
    (SledReader.next c5EnvNoStore c5Reader).1 =
      NextResult.batch [(⟨"growid", DataType.Utf8⟩, [CellValue.str "r"])] := by
  exact ⟨rfl, by decide, rfl, rfl, rfl, by decide, rfl⟩

/-- C5 amended: (1) a projected column whose *name contains* the rowid column
name and whose declared type is `Utf8` is filled with the harvested rowid
strings for every store environment (no lookup is issued); (2) such a column
of any other declared type panics via the string-builder downcast as soon as
one rowid was harvested, again for every store environment; (3) for any other
projected column, an ordinal-lookup failure is a schema error fatal to the
batch; (4) an ordinary column's materialization depends on the store only
through point lookups at the record keys
`create_record_column(table, ordinal, rowid)` of the harvested rowids. -/
theorem c5_materialization_amended :
    (∀ (env : StoreEnv) (t : String) (field : Field) (rowids : List String),
      strContains field.name COLUMN_ROWID = true →
      field.dataType = DataType.Utf8 →
      materializeField env t field rowids =
        ColResult.okCol (rowids.map CellValue.str)) ∧
    (∀ (env : StoreEnv) (t : String) (field : Field) (rowid : String)
        (rowids : List String),
      strContains field.name COLUMN_ROWID = true →
      field.dataType ≠ DataType.Utf8 →
      materializeField env t field (rowid :: rowids) = ColResult.panicked) ∧
    (∀ (env : StoreEnv) (t : String) (field : Field) (rowids : List String)
        (e : String),
      strContains field.name COLUMN_ROWID = false →
      env.getSerialNumber t field.name = Except.error e →
      materializeField env t field rowids =
        ColResult.colError (ArrowError.SchemaError (serialErrMsg e))) ∧
    (∀ (get1 get2 : Bytes → StoreGetResult) (t : String) (idx : Nat)
        (dt : DataType) (rowids : List String) (acc : List CellValue),
      (∀ rid ∈ rowids, get1 (create_record_column t idx rid) =
        get2 (create_record_column t idx rid)) →
      materializeColumn get1 t idx dt rowids acc =
        materializeColumn get2 t idx dt rowids acc) := by
  refine ⟨?_, ?_, ?_, ?_⟩
  · intro env t field rowids h hdt
    simp [materializeField, h, hdt]
  · intro env t field rowid rowids h hne
    rcases field with ⟨nm, dt⟩
    simp only at h hne
    cases dt with
    | Utf8 => exact absurd rfl hne
    | Int32 => simp [materializeField, h]
    | Int64 => simp [materializeField, h]
    | Float32 => simp [materializeField, h]
    | Float64 => simp [materializeField, h]
    | Boolean => simp [materializeField, h]
  · intro env t field rowids e h1 h2
    simp [materializeField, h1, h2]
  · intro get1 get2 t idx dt rowids
    induction rowids with
    | nil => intro acc h; rfl
    | cons rid rest ih =>
      intro acc h
      have hhead := h rid (List.mem_cons_self rid rest)
      have htail : ∀ r ∈ rest, get1 (create_record_column t idx r) =
          get2 (create_record_column t idx r) :=
        fun r hr => h r (List.mem_cons_of_mem rid hr)
      cases hg : get2 (create_record_column t idx rid) with
      | err e =>
        rw [hg] at hhead
        simp [materializeColumn, hhead, hg]
      | ok ov =>
        rw [hg] at hhead
        cases ov with
        | none =>
          cases dt <;>
            simp only [materializeColumn, hhead, hg] <;>
            first
              | rfl
              | exact ih (acc ++ [CellValue.null]) htail
        | some v =>
          cases dt with
          | Utf8 =>
            cases hd : utf8Decode v with
            | none => simp [materializeColumn, hhead, hg, hd]
            | some s =>
              simp only [materializeColumn, hhead, hg, hd]
              exact ih (acc ++ [CellValue.str s]) htail
          | Int32 =>
            cases hd : parseI32 v with
            | none => simp [materializeColumn, hhead, hg, hd]
            | some n =>
              simp only [materializeColumn, hhead, hg, hd]
              exact ih (acc ++ [CellValue.int32 n]) htail
          | Int64 =>
            cases hd : parseI64 v with
            | none => simp [materializeColumn, hhead, hg, hd]
            | some n =>
              simp only [materializeColumn, hhead, hg, hd]
              exact ih (acc ++ [CellValue.int64 n]) htail
          | Float32 => simp [materializeColumn, hhead, hg]
          | Float64 => simp [materializeColumn, hhead, hg]
          | Boolean => simp [materializeColumn, hhead, hg]

/-- C5 amended witness: the four parts at concrete inputs — the Utf8 rowid
column is filled from the rowids; an Int32 column named `"growid32"` panics
via the downcast; a missing ordinal is a schema error; and two stores
agreeing on the record keys materialize identically. -/
theorem c5_materialization_amended_witness :
    materializeField c5EnvNoStore "t" ⟨"rowid", DataType.Utf8⟩ ["r1", "r2"] =
      ColResult.okCol [CellValue.str "r1", CellValue.str "r2"] ∧
    materializeField c5EnvNoStore "t" ⟨"growid32", DataType.Int32⟩ ["r1"] =
      ColResult.panicked ∧
    materializeField
      ⟨fun _ => StoreGetResult.ok none, fun _ => [],
        fun _ _ => Except.error "missing"⟩ "t" ⟨"a", DataType.Utf8⟩ ["r1"] =
      ColResult.colError (ArrowError.SchemaError (serialErrMsg "missing")) ∧
    materializeColumn (fun _ => StoreGetResult.ok none) "t" 0 DataType.Utf8
        ["r1"] [] =
      materializeColumn (fun _ => StoreGetResult.ok none) "t" 0 DataType.Utf8
        ["r1"] [] :=
  ⟨c5_materialization_amended.1 c5EnvNoStore "t" ⟨"rowid", DataType.Utf8⟩
      ["r1", "r2"] (by decide) rfl,
    c5_materialization_amended.2.1 c5EnvNoStore "t" ⟨"growid32", DataType.Int32⟩
      "r1" [] (by decide) (by decide),
    c5_materialization_amended.2.2.1
      ⟨fun _ => StoreGetResult.ok none, fun _ => [], fun _ _ => Except.error "missing"⟩
      "t" ⟨"a", DataType.Utf8⟩ ["r1"] "missing" (by decide) rfl,
    c5_materialization_amended.2.2.2 (fun _ => StoreGetResult.ok none)
      (fun _ => StoreGetResult.ok none) "t" 0 DataType.Utf8 ["r1"] []
      (fun _ _ => rfl)⟩

/-! ## Claim C4 — rowid erasure from logical plans -/

/-- C4 counterexample plan: a `Sort` node (a kind the rewriter does not
handle) over a table scan whose output schema names the rowid column.  No
projection in it explicitly selects rowid by name. -/
def c4CexPlan : LogicalPlan :=
  LogicalPlan.SortNode []
    (LogicalPlan.TableScan "t1" 0 none
      [⟨"rowid", DataType.Utf8⟩, ⟨"a", DataType.Utf8⟩] [] none)

/-- C4 counterexample: the rewriter returns the unhandled `Sort` node
unchanged together with its whole subtree, so the rewritten plan still
contains a table-scan schema naming the rowid column even though the original
query never explicitly selected rowid by name — the claimed invariant fails
for this plan. -/
theorem c4_unhandled_counterexample :
    explicitlySelectsRowid c4CexPlan = false ∧
    remove_rowid_from_projection c4CexPlan = c4CexPlan ∧
    planRowidFree (remove_rowid_from_projection c4CexPlan) = false := by decide

/-- The expressions kept by the projection rewrite never directly select the
rowid column. -/
lemma projectRowidFilter_no_rowid (es : List Expr) :
    ∀ fs : List DFField,
      ((projectRowidFilter es fs).1).all (fun e => !exprIsRowidColumn e) = true := by
  induction es with
  | nil => intro fs; rfl
  | cons e es ih =>
    intro fs
    cases fs with
    | nil =>
      cases e <;> rfl
    | cons f fs =>
      cases e with
      | Column name =>
        by_cases h : name = COLUMN_ROWID
        · simp only [projectRowidFilter, if_pos h]
          exact ih fs
        · simp only [projectRowidFilter, if_neg h, List.all_cons, Bool.and_eq_true]
          refine ⟨?_, ih fs⟩
          simp [exprIsRowidColumn, h]
      | Literal v =>
        simp only [projectRowidFilter, List.all_cons, Bool.and_eq_true]
        exact ⟨rfl, ih fs⟩
      | Alias e2 name =>
        simp only [projectRowidFilter, List.all_cons, Bool.and_eq_true]
        exact ⟨rfl, ih fs⟩

/-- Everything a filter keeps satisfies the filter's predicate. -/
lemma all_filter_self {α : Type} (p : α → Bool) (l : List α) :
    (l.filter p).all p = true := by
  induction l with
  | nil => rfl
  | cons a l ih => by_cases h : p a <;> simp [List.filter_cons, h, ih]

/-- C4 amended: for every plan built solely of the five handled node kinds
(projection, explain, filter, table-scan, limit), the rewritten plan contains
no projection expression directly selecting the rowid column and no
table-scan schema field naming it (the rewriter strips rowid even when it was
explicitly selected); and every node of an unhandled kind is returned
unchanged, its subtree included. -/
theorem c4_rowid_erasure_amended :
    (∀ p : LogicalPlan, handledOnly p = true →
      planRowidFree (remove_rowid_from_projection p) = true) ∧
    (∀ p : LogicalPlan, isUnhandledKind p = true →
      remove_rowid_from_projection p = p) := by
  constructor
  · intro p
    induction p with
    | Projection expr input schema ih =>
      intro h
      simp only [handledOnly] at h
      simp only [remove_rowid_from_projection, planRowidFree, Bool.and_eq_true]
      exact ⟨projectRowidFilter_no_rowid expr schema, ih h⟩
    | Explain verbose plan sp schema ih =>
      intro h
      simp only [handledOnly] at h
      simp only [remove_rowid_from_projection, planRowidFree]
      exact ih h
    | Filter pred input ih =>
      intro h
      simp only [handledOnly] at h
      simp only [remove_rowid_from_projection, planRowidFree]
      exact ih h
    | TableScan tn src proj ps fl lim =>
      intro h
      simp only [remove_rowid_from_projection, planRowidFree]
      exact all_filter_self _ ps
    | Limit n input ih =>
      intro h
      simp only [handledOnly] at h
      simp only [remove_rowid_from_projection, planRowidFree]
      exact ih h
    | SortNode e i ih => intro h; simp [handledOnly] at h
    | EmptyRelation => intro h; simp [handledOnly] at h
  · intro p h
    cases p <;> simp_all [isUnhandledKind, remove_rowid_from_projection]

/-- C4 amended witness: a handled-only plan that explicitly projects rowid
over a rowid-carrying scan schema rewrites to a rowid-free plan, and an
unhandled node is returned unchanged. -/
theorem c4_rowid_erasure_amended_witness :
    planRowidFree (remove_rowid_from_projection
      (LogicalPlan.Projection [Expr.Column "rowid"]
        (LogicalPlan.TableScan "t1" 0 none [⟨"rowid", DataType.Utf8⟩] [] none)
        [⟨"rowid", DataType.Utf8⟩])) = true ∧
    remove_rowid_from_projection LogicalPlan.EmptyRelation =
      LogicalPlan.EmptyRelation :=
  ⟨c4_rowid_erasure_amended.1 _ (by decide),
    c4_rowid_erasure_amended.2 LogicalPlan.EmptyRelation (by decide)⟩

end Sparrow
